import Mathlib

/-!
# Verification of the AdHunt3r observer / coordinator

A shallow embedding of the parts of the AdHunt3r extension relevant to its
specification: the position classifiers and the ad-descriptor pipeline of the
page-embedded detection state machine (`content/inject` sources), the
consecutive-ad-sequence context, the observer's message de-duplication and
rate limiting (`content-script`), and the background coordinator's per-tab
records, rolling 24-hour counters and reset handling (`background.js`).

JavaScript numbers are modelled as rationals (`ℚ`), timestamps as integers
(milliseconds, `ℤ`), nullable strings as `String` with `""` for `null`
(the code only tests these values for truthiness and equality), and DOM
lookups as explicit environment records.  Each definition mirrors one
function of the source; theorems settle the specification claims.
-/

namespace AdHunt3r

/-! ## Position classification -/

/-- The four ad positions used by the detection code. -/
inductive AdPosition where
  | pre_roll | mid_roll | post_roll | unknown
deriving DecidableEq, Repr

/-- Ambient page state read by `detectarPosicionAnuncio`: whether
`document.querySelector('video')` finds the host video element, the
module-level tracking variables, and the element's live fields. -/
structure ClassifierEnv where
  hasVideoElement : Bool
  videoPauseTime : ℚ
  lastVideoContextTime : ℚ
  lastVideoContextDuration : ℚ
  elCurrentTime : ℚ
  elDuration : ℚ
  ended : Bool
  readyState : ℕ

/-- Function `detectarPosicionAnuncio(adStartTime, videoDuration)`: the advanced
position classifier.  Returns `unknown` when the duration is falsy or below
30 seconds, or when no host video element can be located; otherwise picks a
reference time by priority (pause capture, sequence context, the argument,
the element's current time) and classifies against the 5 % / 90 % / 85 %
thresholds. -/
def detectarPosicionAnuncio (env : ClassifierEnv) (adStartTime videoDuration : ℚ) :
    AdPosition :=
  if videoDuration = 0 ∨ videoDuration < 30 then .unknown
  else if ¬ env.hasVideoElement then .unknown
  else
    let referenceTime :=
      if env.videoPauseTime > 0 then env.videoPauseTime
      else if env.lastVideoContextTime > 0 then env.lastVideoContextTime
      else if adStartTime > 0 then adStartTime
      else env.elCurrentTime
    let finalVideoDuration :=
      if videoDuration = 0 ∧ env.lastVideoContextDuration > 0 then
        env.lastVideoContextDuration
      else if videoDuration = 0 then env.elDuration
      else videoDuration
    let isVideoEnded := env.ended || decide (4 ≤ env.readyState)
    let preRollThreshold := finalVideoDuration * 0.05
    let postRollThreshold := finalVideoDuration * 0.90
    let percentage :=
      if finalVideoDuration > 0 then referenceTime / finalVideoDuration else 0
    if referenceTime ≤ preRollThreshold ∨ referenceTime ≤ 10 then .pre_roll
    else if referenceTime ≥ postRollThreshold ∨ isVideoEnded = true ∨
        percentage > 0.85 then .post_roll
    else .mid_roll

/-- The inline position logic of `detectAdTypeCommon` (the branch taken when
the host video element was located), applied to the final
`videoCurrentTime` / `totalDuration` pair: post-roll when the video ended,
is within 3 s of its end, or is ≥ 90 % through (and is not paused); pre-roll
within the 10 s / 5 % start tolerance; otherwise mid-roll.  With no usable
duration, post-roll at ≥ 300 s or on `ended`. -/
def classifyCommon (videoCurrentTime totalDuration : ℚ) (ended paused : Bool) :
    AdPosition :=
  let videoProgress := if totalDuration > 0 then videoCurrentTime / totalDuration else 0
  if totalDuration > 0 then
    if (ended || decide (|videoCurrentTime - totalDuration| < 3) ||
        decide (videoProgress ≥ 0.9)) && !paused then .post_roll
    else if videoCurrentTime ≤ 10 ∨ videoProgress ≤ 0.05 then .pre_roll
    else .mid_roll
  else
    if ended || decide (videoCurrentTime ≥ 300) then .post_roll
    else if videoCurrentTime ≤ 10 then .pre_roll
    else .mid_roll

/-! ## Consecutive-ad-sequence context -/

/-- One live observation of the host video made during a detection pass:
the resolved `videoCurrentTime` / `totalDuration`, and the element's
`ended` / `paused` flags. -/
structure Obs where
  t : ℚ
  d : ℚ
  ended : Bool
  paused : Bool

/-- The module-level sequence-tracking state: `isInAdSequence`,
`consecutiveAdCount`, and the captured video context
`lastVideoContextTime` / `lastVideoContextDuration`. -/
structure SeqState where
  isInAdSequence : Bool
  consecutiveAdCount : ℕ
  lastVideoContextTime : ℚ
  lastVideoContextDuration : ℚ

/-- Function `resetAdDataVariables()` restricted to the sequence-tracking
state: among the module variables it clears (per-ad overlay data,
`videoPauseTime`, `videoBaseTime`, `adSequenceStartTime`, ...), the only
one living in `SeqState` is `isInAdSequence`, which it sets back to
`false`; it touches neither `consecutiveAdCount` nor the captured
`lastVideoContextTime` / `lastVideoContextDuration`. -/
def resetAdDataVariables (s : SeqState) : SeqState :=
  { s with isInAdSequence := false }

/-- Function `startAdSequence()`: opens a sequence with
`consecutiveAdCount = 0` (or advances the counter when a sequence is
already active) and then calls `resetAdDataVariables()` — which
immediately clears `isInAdSequence` again, so after every call the
sequence flag is down and, from any reachable state, the counter is 0. -/
def startAdSequence (s : SeqState) : SeqState :=
  if !s.isInAdSequence then
    resetAdDataVariables { s with isInAdSequence := true, consecutiveAdCount := 0 }
  else
    resetAdDataVariables { s with consecutiveAdCount := s.consecutiveAdCount + 1 }

/-- Function `updateVideoContext(currentTime, totalDuration)` (context part): outside
a sequence or on the pass with `consecutiveAdCount === 1` the context is set
from the live values; on later passes of the sequence it is kept. -/
def updateVideoContext (currentTime totalDuration : ℚ) (s : SeqState) : SeqState :=
  if !s.isInAdSequence then
    { s with lastVideoContextTime := currentTime,
             lastVideoContextDuration := totalDuration }
  else if s.consecutiveAdCount = 1 then
    { s with lastVideoContextTime := currentTime,
             lastVideoContextDuration := totalDuration }
  else s

/-- One invocation of `detectAdTypeCommon`'s position part with the host
video element located: `startAdSequence()`, then `updateVideoContext` when
both live values are positive, then the consecutive-ad override (stored
context replaces the live values when `consecutiveAdCount > 1` and a
context was captured), then the inline classification. -/
def detectPass (o : Obs) (s : SeqState) : SeqState × AdPosition :=
  let s1 := startAdSequence s
  let s2 := if o.t > 0 ∧ o.d > 0 then updateVideoContext o.t o.d s1 else s1
  let useCtx := 1 < s2.consecutiveAdCount ∧
    0 < s2.lastVideoContextTime ∧ 0 < s2.lastVideoContextDuration
  let rt := if useCtx then s2.lastVideoContextTime else o.t
  let rd := if useCtx then s2.lastVideoContextDuration else o.d
  (s2, classifyCommon rt rd o.ended o.paused)

/-- Run a list of detection passes from a sequence state, collecting the
classified positions. -/
def detectPasses (s : SeqState) : List Obs → List AdPosition
  | [] => []
  | o :: rest =>
    let p := detectPass o s
    p.2 :: detectPasses p.1 rest

/-- The initial sequence state (no sequence active, no context captured). -/
def initSeqState : SeqState := ⟨false, 0, 0, 0⟩

/-! ## Ad descriptor: skippability, duration inference, type -/

/-- The ad-type enumeration of the descriptor. -/
inductive AdType where
  | skippable | bumper | non_skippable_short | non_skippable_medium
  | non_skippable_long | non_skippable | unknown
deriving DecidableEq, Repr

/-- The first run of decimal digits in a string, as a number: the value of
`parseInt` applied to the match of `/\d+/` (`none` when the regex finds no
digit). -/
def firstNat (s : String) : Option ℕ :=
  let ds := (s.toList.dropWhile (fun c => !c.isDigit)).takeWhile Char.isDigit
  if ds.isEmpty then none
  else some (ds.foldl (fun n c => 10 * n + (c.toNat - 48)) 0)

/-- The DOM facts read by `detectAdTypeCommon` while building a descriptor:
whether a skip button / visible ad container / "confirmed non-skippable"
element was found, whether the page body text contains a skip phrase, the
resolved skip text, the result of `getBestAdDuration()`, and the duration
values assigned by the `AD_SELECTORS.time` regex scan and the progress-bar
label scan when those matched. -/
structure DetectEnv where
  skipButtonFound : Bool
  bodyHasSkipPhrase : Bool
  nonSkippableFound : Bool
  skipText : String
  containerFound : Bool
  bestDuration : ℚ
  bestIsDetected : Bool
  bestSource : String
  domTextDuration : Option ℚ
  progressBarDuration : Option ℚ

/-- The descriptor fields computed by `detectAdTypeCommon` that the claims
are about. -/
structure AdDescriptor where
  type : AdType
  isSkippable : Bool
  duration : ℚ
  durationDetected : Bool
  durationSource : String
deriving DecidableEq, Repr

/-- The skippability / duration / type pipeline of `detectAdTypeCommon`:
skip evidence (button, page text, countdown digits in the skip text), then
the duration-source cascade (best live estimate, DOM time text,
progress-bar label, skip-countdown inference with its {6, 15, 20} buckets
which also forces skippability, final 6 s / 30 s estimation), then the type
derivation from `(isSkippable, duration, adContainer)`. -/
def detectAdTypeCommon (env : DetectEnv) : AdDescriptor :=
  -- skip evidence: button, then page text, then (no-op) non-skippable
  -- selectors, then a countdown number inside the skip text
  let isSkippable1 := env.skipButtonFound || env.bodyHasSkipPhrase
  let isSkippable2 :=
    if !isSkippable1 && env.nonSkippableFound then false else isSkippable1
  let isSkippable3 :=
    if !isSkippable2 && env.skipText ≠ "" && (firstNat env.skipText).isSome then
      true
    else isSkippable2
  -- duration cascade; a state is (adDuration, durationDetected, durationSource)
  let r1 : ℚ × Bool × String :=
    if env.bestDuration > 0 then (env.bestDuration, env.bestIsDetected, env.bestSource)
    else (0, false, "none")
  let r2 : ℚ × Bool × String :=
    if r1.1 = 0 then
      match env.domTextDuration with
      | some v => (v, true, "dom-text")
      | none => r1
    else r1
  let r3 : ℚ × Bool × String :=
    if r2.1 = 0 then
      match env.progressBarDuration with
      | some v => (v, true, "progress-bar")
      | none => r2
    else r2
  let r4 : ℚ × Bool × String × Bool :=
    if r3.1 = 0 ∧ env.skipText ≠ "" then
      match firstNat env.skipText with
      | some remainingTime =>
        if remainingTime ≤ 6 then (6, true, "skip-inference", true)
        else if remainingTime ≤ 15 then (15, true, "skip-inference", true)
        else if remainingTime ≤ 20 then (20, true, "skip-inference", true)
        else (r3.1, r3.2.1, r3.2.2, isSkippable3)
      | none => (r3.1, r3.2.1, r3.2.2, isSkippable3)
    else (r3.1, r3.2.1, r3.2.2, isSkippable3)
  let r5 : ℚ × Bool × String × Bool :=
    if r4.1 = 0 then
      if !r4.2.2.2 ∧ env.containerFound then (6, false, "estimation", r4.2.2.2)
      else if r4.2.2.2 then (30, false, "estimation", r4.2.2.2)
      else (0, r4.2.1, "estimation", r4.2.2.2)
    else r4
  let isSkippable := r5.2.2.2
  let adDuration := r5.1
  let adType : AdType :=
    if isSkippable then .skippable
    else if adDuration > 0 then
      if adDuration ≤ 6 then .bumper
      else if adDuration ≤ 15 then .non_skippable_short
      else if adDuration ≤ 30 then .non_skippable_medium
      else .non_skippable_long
    else if env.containerFound then .non_skippable
    else .unknown
  { type := adType, isSkippable := isSkippable, duration := adDuration,
    durationDetected := r5.2.1, durationSource := r5.2.2.1 }

/-- The type-derivation rule as the specification words it in §4.2, as a
function of `(isSkippable, duration)` plus the container flag. -/
def specAdType (isSkippable : Bool) (duration : ℚ) (containerDetected : Bool) :
    AdType :=
  if isSkippable then .skippable
  else if duration > 0 then
    if duration ≤ 6 then .bumper
    else if duration ≤ 15 then .non_skippable_short
    else if duration ≤ 30 then .non_skippable_medium
    else .non_skippable_long
  else if containerDetected then .non_skippable
  else .unknown

/-- The environment of the §8 scenario: no live-measured duration, the
video element reports duration 0 (so `getBestAdDuration` yields 0), no DOM
time or progress-bar match, and the skip text shows the countdown
"Skip in 4". -/
def envSkipIn4 : DetectEnv :=
  { skipButtonFound := false
    bodyHasSkipPhrase := false
    nonSkippableFound := false
    skipText := "Skip in 4"
    containerFound := true
    bestDuration := 0
    bestIsDetected := false
    bestSource := "none"
    domTextDuration := none
    progressBarDuration := none }

/-! ## Background coordinator: per-tab records, counters, reset -/

/-- The 24-hour window in milliseconds. -/
def DAY_MS : ℤ := 24 * 60 * 60 * 1000

/-- One entry of the ad rolling-window collection (`adTimestamps`). -/
structure AdStoreEntry where
  adId : String
  timestamp : ℤ
deriving DecidableEq, Repr

/-- One entry of the video rolling-window collection (`videoTimestamps`). -/
structure VideoEntry where
  videoId : String
  timestamp : ℤ
deriving DecidableEq, Repr

/-- The background script's mutable state: the two persisted rolling-window
collections and the per-tab dedup tracking. -/
structure BgState where
  adTimestamps : List AdStoreEntry
  videoTimestamps : List VideoEntry
  lastCountedAdIdByTab : ℕ → Option (String × ℤ)
  lastCountedVideoIdByTab : ℕ → Option String
  globalVideoProcessing : List String

/-- The background state at service-worker start. -/
def initBgState : BgState :=
  { adTimestamps := []
    videoTimestamps := []
    lastCountedAdIdByTab := fun _ => none
    lastCountedVideoIdByTab := fun _ => none
    globalVideoProcessing := [] }

/-- One invocation of `handleAdCounting` as seen by the coordinator: the
sending tab, the message's `addebug_videoId` (`""` for `null`), the derived
`hasAd` flag, and `Date.now()` at processing time. -/
structure AdEvent where
  tabId : ℕ
  addebugVideoId : String
  hasAd : Bool
  now : ℤ
deriving DecidableEq, Repr

/-- A counted ad impression, with the tab it was counted on (the persisted
entry drops the tab). -/
structure AdLogEntry where
  tabId : ℕ
  adId : String
  timestamp : ℤ
deriving DecidableEq, Repr

/-- Function `handleAdCounting(message, tabId, hasAd)` followed by
`saveAdTimestamp`: count unless the message's ad id equals the tab's last
counted id no more than 5000 ms ago; on counting, record the id and time
for the tab, prune entries older than 24 h and append the new entry.
Returns the new state and the counted impression, if any. -/
def handleAdCounting (e : AdEvent) (s : BgState) : BgState × Option AdLogEntry :=
  if e.hasAd ∧ e.addebugVideoId ≠ "" ∧ e.addebugVideoId ≠ "empty_video" then
    let shouldCount : Bool :=
      match s.lastCountedAdIdByTab e.tabId with
      | none => true
      | some (adId, timestamp) =>
        adId != e.addebugVideoId || decide (5000 < e.now - timestamp)
    if shouldCount then
      ({ s with
          lastCountedAdIdByTab := fun t =>
            if t = e.tabId then some (e.addebugVideoId, e.now)
            else s.lastCountedAdIdByTab t
          adTimestamps :=
            (s.adTimestamps.filter (fun item => e.now - item.timestamp ≤ DAY_MS)) ++
              [⟨e.addebugVideoId, e.now⟩] },
        some ⟨e.tabId, e.addebugVideoId, e.now⟩)
    else (s, none)
  else (s, none)

/-- Process a list of ad-activity events, collecting every counted
impression in order. -/
def runAdEvents (s : BgState) : List AdEvent → BgState × List AdLogEntry
  | [] => (s, [])
  | e :: rest =>
    let p := handleAdCounting e s
    let q := runAdEvents p.1 rest
    (q.1, p.2.toList ++ q.2)

/-- The impressions counted for one tab over a run of events starting from
the initial state. -/
def tabAdCounts (tab : ℕ) (events : List AdEvent) : List AdLogEntry :=
  (runAdEvents initBgState events).2.filter (fun a => a.tabId = tab)

/-- Function `handleVideoCounting(tabId)`, with the tab's resolved `debug_videoId`
and `addebug_videoId` (`""` for `null`) and `Date.now()` as inputs: bail
out on a missing / short / ad-equal id, on the tab's last counted id, or on
a concurrent processing guard; otherwise append the id unless it already
has an entry in the trailing 24 h. -/
def handleVideoCounting (tab : ℕ) (debugVideoId addebugVideoId : String)
    (now : ℤ) (s : BgState) : BgState :=
  if debugVideoId = "" ∨ debugVideoId.length < 10 ∨ debugVideoId = addebugVideoId then s
  else if s.lastCountedVideoIdByTab tab = some debugVideoId then s
  else if debugVideoId ∈ s.globalVideoProcessing then
    { s with lastCountedVideoIdByTab := fun t =>
        if t = tab then some debugVideoId else s.lastCountedVideoIdByTab t }
  else
    let existingEntry := s.videoTimestamps.any
      (fun item => item.videoId = debugVideoId && decide (now - item.timestamp ≤ DAY_MS))
    if existingEntry then
      { s with lastCountedVideoIdByTab := fun t =>
          if t = tab then some debugVideoId else s.lastCountedVideoIdByTab t }
    else
      { s with
          lastCountedVideoIdByTab := fun t =>
            if t = tab then some debugVideoId else s.lastCountedVideoIdByTab t
          videoTimestamps :=
            (s.videoTimestamps.filter (fun item => now - item.timestamp ≤ DAY_MS)) ++
              [⟨debugVideoId, now⟩] }

/-- The `GET_ADS_LAST_24H` handler: prune to the trailing 24 h, store the
pruned list back, and answer with its raw length (repeats included). -/
def getAdsLast24h (now : ℤ) (adTimestamps : List AdStoreEntry) :
    ℕ × List AdStoreEntry :=
  let last24h := adTimestamps.filter (fun item => now - item.timestamp ≤ DAY_MS)
  (last24h.length, last24h)

/-- The `GET_VIDEOS_LAST_24H` handler: prune to the trailing 24 h, store the
pruned list back, and answer with the number of distinct video ids among
the remaining entries (`new Set(...).size`). -/
def getVideosLast24h (now : ℤ) (videoTimestamps : List VideoEntry) :
    ℕ × List VideoEntry :=
  let last24h := videoTimestamps.filter (fun item => now - item.timestamp ≤ DAY_MS)
  (((last24h.map (fun item => item.videoId)).dedup).length, last24h)

/-- The `RESET_COUNTERS` handler: clear both rolling-window collections and
all per-tab dedup tracking; respond `{success: true}`. -/
def resetCounters (s : BgState) : BgState × Bool :=
  ({ s with
      adTimestamps := []
      videoTimestamps := []
      lastCountedAdIdByTab := fun _ => none
      lastCountedVideoIdByTab := fun _ => none
      globalVideoProcessing := [] },
    true)

/-! ## Per-tab coordinator record (`VIDEO_DEBUG_ALL` handler) -/

/-- An incoming `VIDEO_DEBUG_ALL` message, with nullable ids as `String`
(`""` for `null`) and `debug_videoId` already resolved through its
fallbacks. -/
structure TabMessage where
  adActive : Bool
  addebugVideoId : String
  debugText : String
  debugVideoId : String
deriving DecidableEq, Repr

/-- The per-tab record kept in `debugDataByTab` (the fields the claims are
about). -/
structure TabData where
  debugText : String
  adActive : Bool
  addebugVideoId : String
  debugVideoId : String
deriving DecidableEq, Repr

/-- Function `createEmptyTabData()`. -/
def createEmptyTabData : TabData :=
  { debugText := "", adActive := false, addebugVideoId := "", debugVideoId := "" }

/-- The `hasAd` derivation of the `VIDEO_DEBUG_ALL` handler:
`message.adActive || !!message.addebug_videoId`. -/
def hasAdOf (m : TabMessage) : Bool :=
  m.adActive || m.addebugVideoId ≠ ""

/-- The handler's `adStateChanged` test.  With no record for the tab the
comparisons run against `undefined` fields and the first disjunct is
already true. -/
def adStateChanged (m : TabMessage) (rec : Option TabData) : Bool :=
  match rec with
  | none => true
  | some cur =>
    (hasAdOf m != cur.adActive) ||
    (hasAdOf m && m.addebugVideoId ≠ "" && (m.addebugVideoId != cur.addebugVideoId)) ||
    (!(hasAdOf m) && cur.adActive)

/-- The `VIDEO_DEBUG_ALL` handler's record update: initialise an empty
record when none exists, then overwrite it through `updateTabData` when the
ad state, the debug text or the video id changed. -/
def vdaUpdateRecord (m : TabMessage) (rec : Option TabData) : TabData :=
  let base := rec.getD createEmptyTabData
  let shouldUpdateData := adStateChanged m rec ||
    (m.debugText != base.debugText) || (m.debugVideoId != base.debugVideoId)
  if shouldUpdateData then
    { debugText := m.debugText, adActive := hasAdOf m,
      addebugVideoId := m.addebugVideoId, debugVideoId := m.debugVideoId }
  else base

/-- The record invariant claimed in §3: an active record names a real ad. -/
def recordAdInvariant (td : TabData) : Prop :=
  td.adActive = true → td.addebugVideoId ≠ "" ∧ td.addebugVideoId ≠ "empty_video"

/-! ## Observer message layer (`sendMessage`) -/

/-- The three message types routed through the content script's
`sendMessage`. -/
inductive MsgType where
  | video_debug_all | ad_detected | ad_ended
deriving DecidableEq, Repr

/-- An outgoing observer message; `payload` stands for the rest of the
structure, compared by `JSON.stringify` equality. -/
structure ObsMessage where
  type : MsgType
  payload : String
deriving DecidableEq, Repr

/-- The `messageBuffer`: last message of each type recorded for dedup, and
the time of the last successful send. -/
structure SendState where
  lastVideoDebugAll : Option ObsMessage
  lastAdDetected : Option ObsMessage
  lastAdEnded : Option ObsMessage
  lastSentTime : ℤ

/-- The buffer slot for a message type. -/
def bufOf (s : SendState) : MsgType → Option ObsMessage
  | .video_debug_all => s.lastVideoDebugAll
  | .ad_detected => s.lastAdDetected
  | .ad_ended => s.lastAdEnded

/-- Store a message in its buffer slot. -/
def setBuf (s : SendState) (m : ObsMessage) : SendState :=
  match m.type with
  | .video_debug_all => { s with lastVideoDebugAll := some m }
  | .ad_detected => { s with lastAdDetected := some m }
  | .ad_ended => { s with lastAdEnded := some m }

/-- Function `isMessageSimilar(msg1, msg2)`: false against a missing buffer entry,
else `JSON.stringify` equality. -/
def isMessageSimilar (m : ObsMessage) : Option ObsMessage → Bool
  | none => false
  | some prev => m == prev

/-- Function `sendMessage(messageData)` (with `chrome.runtime.sendMessage`
available): drop anything within 500 ms of the last send, drop a structural
duplicate of the buffered message of the same type, otherwise record the
message, send it and stamp `lastSentTime`.  Returns the new state and
whether the message was sent. -/
def sendMessage (now : ℤ) (m : ObsMessage) (s : SendState) : SendState × Bool :=
  if now - s.lastSentTime < 500 then (s, false)
  else
    let isDuplicate := isMessageSimilar m (bufOf s m.type)
    if !isDuplicate then
      ({ setBuf s m with lastSentTime := now }, true)
    else (s, false)

/-- The buffer at content-script start. -/
def initSendState : SendState := ⟨none, none, none, 0⟩

/-- Run `sendMessage` over a trace of timed messages, collecting the ones
actually sent. -/
def processSends (s : SendState) : List (ℤ × ObsMessage) → SendState × List (ℤ × ObsMessage)
  | [] => (s, [])
  | (now, m) :: rest =>
    let p := sendMessage now m s
    let q := processSends p.1 rest
    (q.1, (if p.2 then [(now, m)] else []) ++ q.2)

/-- The messages sent over a trace from the initial state. -/
def sentMessages (trace : List (ℤ × ObsMessage)) : List (ℤ × ObsMessage) :=
  (processSends initSendState trace).2

/-! ## Claim statements and concrete fixtures -/

/-- Claim C1 as stated, read against the inline position classification of
`detectAdTypeCommon` (the cited code), whose branch already presupposes a
located host video element: a reference duration under 30 s yields
`unknown`, and a duration of at least 30 s yields exactly one of the three
roll positions. -/
def claimC1Statement : Prop :=
  ∀ (t d : ℚ) (ended paused : Bool),
    (d < 30 → classifyCommon t d ended paused = .unknown) ∧
    (30 ≤ d → classifyCommon t d ended paused ≠ .unknown ∧
      (classifyCommon t d ended paused = .pre_roll ∨
       classifyCommon t d ended paused = .mid_roll ∨
       classifyCommon t d ended paused = .post_roll))

/-- A fixed classifier environment with a located host video element. -/
def envWithVideo : ClassifierEnv :=
  { hasVideoElement := true, videoPauseTime := 0, lastVideoContextTime := 0,
    lastVideoContextDuration := 0, elCurrentTime := 0, elDuration := 0,
    ended := false, readyState := 0 }

/-- Claim C2 as stated: every pass of a consecutive-ad run is classified
against the host-video reference captured at sequence start (the first
pass's live observation), never against the pass's own observation. -/
def claimC2Statement : Prop :=
  ∀ (l : List Obs) (hd : Obs), l.head? = some hd →
    detectPasses initSeqState l =
      l.map (fun o => classifyCommon hd.t hd.d o.ended o.paused)

/-- The §8 scenario: three consecutive ads on a 600-second host video whose
reference time is about 300 s at sequence start; the host video is paused
while the ads play and each pass observes a slightly different time. -/
def seqScenario : List Obs :=
  [⟨300, 600, false, true⟩, ⟨304, 600, false, true⟩, ⟨308, 600, false, true⟩]

/-- Claim C5 as stated: over any chronological run of ad-activity changes,
any two impressions counted for the same tab and the same ad id lie more
than 5 seconds apart. -/
def claimC5Statement : Prop :=
  ∀ (events : List AdEvent),
    List.Chain' (fun a b => a.now ≤ b.now) events →
    ∀ tab, List.Pairwise
      (fun a b => a.adId = b.adId → 5000 < b.timestamp - a.timestamp)
      (tabAdCounts tab events)

/-- An A, B, A flicker on one tab, all within 2 seconds, every message
carrying an active ad. -/
def flickerEvents : List AdEvent :=
  [⟨1, "A", true, 0⟩, ⟨1, "B", true, 1000⟩, ⟨1, "A", true, 2000⟩]

/-- Claim C7 as stated: the record invariant (`adActive` implies a
non-empty, non-sentinel ad id) is preserved by every `VIDEO_DEBUG_ALL`
record update. -/
def claimC7Statement : Prop :=
  ∀ (m : TabMessage) (rec : Option TabData),
    (∀ td, rec = some td → recordAdInvariant td) →
    recordAdInvariant (vdaUpdateRecord m rec)

/-! ## Theorems -/

/-- C3: for every ad descriptor produced by a detection pass, the `type`
field is the deterministic function of `(isSkippable, duration)` given by
the §4.2 precedence rules (with the ad-container flag deciding between
`non_skippable` and `unknown` at duration 0). -/
theorem c3_type_deterministic (env : DetectEnv) :
    (detectAdTypeCommon env).type =
      specAdType (detectAdTypeCommon env).isSkippable
        (detectAdTypeCommon env).duration env.containerFound := rfl

/-- C4 counterexample: in the §8 skip-inference scenario (no live duration,
video element duration 0, skip text "Skip in 4"), the produced descriptor's
type is not `bumper` — the inferred skippability takes precedence. -/
theorem c4_claim_counterexample :
    (detectAdTypeCommon envSkipIn4).type ≠ AdType.bumper := by decide

/-- C4 amended: in the §8 skip-inference scenario the descriptor has
`duration = 6`, `durationSource = "skip-inference"`, `isSkippable = true`,
and — because skippability takes precedence over the duration buckets —
`type = skippable`, not `bumper`. -/
theorem c4_skip_inference_scenario :
    detectAdTypeCommon envSkipIn4 =
      { type := .skippable, isSkippable := true, duration := 6,
        durationDetected := true, durationSource := "skip-inference" } := by decide

/-- C9: after `RESET_COUNTERS` answers `{success: true}`, an immediately
following `GET_ADS_LAST_24H` and `GET_VIDEOS_LAST_24H` each count 0,
whatever the prior state and query times. -/
theorem c9_reset_roundtrip (s : BgState) (now now' : ℤ) :
    (resetCounters s).2 = true ∧
    (getAdsLast24h now (resetCounters s).1.adTimestamps).1 = 0 ∧
    (getVideosLast24h now' (resetCounters s).1.videoTimestamps).1 = 0 :=
  ⟨rfl, rfl, rfl⟩

/-- C10: `handleVideoCounting` never appends an entry whose video id is
shorter than 10 characters — every entry of the resulting collection either
was already stored or has an id of length at least 10. -/
theorem c10_video_id_length (tab : ℕ) (debugVideoId addebugVideoId : String)
    (now : ℤ) (s : BgState) :
    ∀ e ∈ (handleVideoCounting tab debugVideoId addebugVideoId now s).videoTimestamps,
      e ∈ s.videoTimestamps ∨ 10 ≤ e.videoId.length := by
  intro e he
  simp only [handleVideoCounting] at he
  split_ifs at he with h1 h2 h3 h4
  · exact Or.inl he
  · exact Or.inl he
  · exact Or.inl he
  · exact Or.inl he
  · rcases List.mem_append.1 he with hmem | hmem
    · exact Or.inl (List.mem_filter.1 hmem).1
    · rcases List.mem_singleton.1 hmem with rfl
      push_neg at h1
      exact Or.inr h1.2.1

/-- C10 witness: a concrete 11-character id is appended and satisfies the
length bound. -/
theorem c10_video_id_length_witness :
    (⟨"ABCDEFGHIJK", 0⟩ : VideoEntry) ∈
      (handleVideoCounting 1 "ABCDEFGHIJK" "" 0 initBgState).videoTimestamps ∧
    ((⟨"ABCDEFGHIJK", 0⟩ : VideoEntry) ∈ initBgState.videoTimestamps ∨
      10 ≤ "ABCDEFGHIJK".length) :=
  ⟨by decide, c10_video_id_length 1 "ABCDEFGHIJK" "" 0 initBgState ⟨"ABCDEFGHIJK", 0⟩ (by decide)⟩

/-- Helper: a `pre_roll` / `post_roll` / `mid_roll` conditional is total
over the three roll positions. -/
theorem ifChain_pre_post_mid (c1 c2 : Prop) [Decidable c1] [Decidable c2] :
    (if c1 then AdPosition.pre_roll else if c2 then AdPosition.post_roll
      else AdPosition.mid_roll) ≠ AdPosition.unknown ∧
    ((if c1 then AdPosition.pre_roll else if c2 then AdPosition.post_roll
      else AdPosition.mid_roll) = AdPosition.pre_roll ∨
     (if c1 then AdPosition.pre_roll else if c2 then AdPosition.post_roll
      else AdPosition.mid_roll) = AdPosition.mid_roll ∨
     (if c1 then AdPosition.pre_roll else if c2 then AdPosition.post_roll
      else AdPosition.mid_roll) = AdPosition.post_roll) := by
  split_ifs <;> simp

/-- Helper: a `post_roll` / `pre_roll` / `mid_roll` conditional is total
over the three roll positions. -/
theorem ifChain_post_pre_mid (c1 c2 : Prop) [Decidable c1] [Decidable c2] :
    (if c1 then AdPosition.post_roll else if c2 then AdPosition.pre_roll
      else AdPosition.mid_roll) ≠ AdPosition.unknown ∧
    ((if c1 then AdPosition.post_roll else if c2 then AdPosition.pre_roll
      else AdPosition.mid_roll) = AdPosition.pre_roll ∨
     (if c1 then AdPosition.post_roll else if c2 then AdPosition.pre_roll
      else AdPosition.mid_roll) = AdPosition.mid_roll ∨
     (if c1 then AdPosition.post_roll else if c2 then AdPosition.pre_roll
      else AdPosition.mid_roll) = AdPosition.post_roll) := by
  split_ifs <;> simp

/-- C1 counterexample: the cited inline classification of
`detectAdTypeCommon` does not return `unknown` for reference durations
under 30 seconds — at reference time 15 s on a 20-second host video it
returns `mid_roll`. -/
theorem c1_claim_counterexample : ¬ claimC1Statement := by
  intro h
  have h2 := (h 15 20 false false).1 (by norm_num)
  rw [show classifyCommon 15 20 false false = .mid_roll from by
    norm_num [classifyCommon]] at h2
  exact AdPosition.noConfusion h2

/-- C1 amended: the advanced classifier `detectarPosicionAnuncio` returns
`unknown` for every reference duration under 30 s and, with a located host
video element and a duration of at least 30 s, returns exactly one of
{pre_roll, mid_roll, post_roll}; the inline classification of
`detectAdTypeCommon`, which runs only when the element was located, never
returns `unknown` at all — even for durations under 30 s it returns one of
the three roll positions. -/
theorem c1_position_totality :
    (∀ (env : ClassifierEnv) (t d : ℚ), env.hasVideoElement = true →
      (d < 30 → detectarPosicionAnuncio env t d = .unknown) ∧
      (30 ≤ d → detectarPosicionAnuncio env t d ≠ .unknown ∧
        (detectarPosicionAnuncio env t d = .pre_roll ∨
         detectarPosicionAnuncio env t d = .mid_roll ∨
         detectarPosicionAnuncio env t d = .post_roll))) ∧
    (∀ (t d : ℚ) (ended paused : Bool),
      classifyCommon t d ended paused ≠ .unknown ∧
      (classifyCommon t d ended paused = .pre_roll ∨
       classifyCommon t d ended paused = .mid_roll ∨
       classifyCommon t d ended paused = .post_roll)) := by
  constructor
  · intro env t d h
    constructor
    · intro hd
      unfold detectarPosicionAnuncio
      rw [if_pos (Or.inr hd)]
    · intro hd
      unfold detectarPosicionAnuncio
      rw [if_neg (by push_neg; constructor <;> linarith), if_neg (by simp [h])]
      exact ifChain_pre_post_mid _ _
  · intro t d ended paused
    simp only [classifyCommon]
    split
    · exact ifChain_post_pre_mid _ _
    · exact ifChain_post_pre_mid _ _

/-- C1 witness: with a located host video element, a 20-second reference
duration classifies concretely, and a 45-second one yields a roll
position. -/
theorem c1_position_totality_witness :
    envWithVideo.hasVideoElement = true ∧
    ((20 : ℚ) < 30 → detectarPosicionAnuncio envWithVideo 15 20 = .unknown) ∧
    (30 ≤ (45 : ℚ) → detectarPosicionAnuncio envWithVideo 15 45 ≠ .unknown ∧
      (detectarPosicionAnuncio envWithVideo 15 45 = .pre_roll ∨
       detectarPosicionAnuncio envWithVideo 15 45 = .mid_roll ∨
       detectarPosicionAnuncio envWithVideo 15 45 = .post_roll)) :=
  ⟨rfl, (c1_position_totality.1 envWithVideo 15 20 rfl).1,
    (c1_position_totality.1 envWithVideo 15 45 rfl).2⟩

/-- C6: `GET_VIDEOS_LAST_24H` answers the cardinality of the set of
distinct video ids having at least one entry timestamped within the
trailing 24 hours, however many raw entries each id has. -/
theorem c6_videos_unique_count (now : ℤ) (entries : List VideoEntry) :
    (getVideosLast24h now entries).1 =
      ((entries.map (fun e => e.videoId)).toFinset.filter
        (fun id => ∃ e ∈ entries, e.videoId = id ∧ now - e.timestamp ≤ DAY_MS)).card := by
  simp only [getVideosLast24h]
  rw [← List.card_toFinset]
  congr 1
  ext id
  simp only [List.mem_toFinset, List.mem_map, List.mem_filter, Finset.mem_filter,
    decide_eq_true_eq]
  constructor
  · rintro ⟨e, ⟨he, hw⟩, rfl⟩
    exact ⟨⟨e, he, rfl⟩, e, he, rfl, hw⟩
  · rintro ⟨-, e, he, rfl, hw⟩
    exact ⟨e, ⟨he, hw⟩, rfl⟩

/-- Helper: every detection pass classifies against its own live
observation — `startAdSequence` immediately clears `isInAdSequence` again
(via `resetAdDataVariables`), so from any state with the flag down the
counter stays 0 and the stored-context override never fires. -/
theorem detectPasses_live (l : List Obs) (s : SeqState)
    (h : s.isInAdSequence = false) :
    detectPasses s l =
      l.map (fun o => classifyCommon o.t o.d o.ended o.paused) := by
  induction l generalizing s with
  | nil => rfl
  | cons o rest ih =>
    have hstart : startAdSequence s =
        ⟨false, 0, s.lastVideoContextTime, s.lastVideoContextDuration⟩ := by
      simp [startAdSequence, resetAdDataVariables, h]
    by_cases hc : o.t > 0 ∧ o.d > 0
    · have hpass : detectPass o s =
          (⟨false, 0, o.t, o.d⟩, classifyCommon o.t o.d o.ended o.paused) := by
        simp [detectPass, hstart, hc, updateVideoContext]
      simp only [detectPasses, List.map_cons]
      rw [hpass]
      dsimp only
      rw [ih _ rfl]
    · have hpass : detectPass o s =
          (⟨false, 0, s.lastVideoContextTime, s.lastVideoContextDuration⟩,
           classifyCommon o.t o.d o.ended o.paused) := by
        simp [detectPass, hstart, hc]
      simp only [detectPasses, List.map_cons]
      rw [hpass]
      dsimp only
      rw [ih _ rfl]

/-- C2 counterexample: with two consecutive passes observing live times 5 s
and 300 s on a 600-second host video, the first pass classifies `pre_roll`
from its own observation and the second classifies `mid_roll` — the passes
are not classified against a reference captured at sequence start. -/
theorem c2_claim_counterexample : ¬ claimC2Statement := by
  intro h
  have h2 := h [⟨5, 600, false, false⟩, ⟨300, 600, false, false⟩]
    ⟨5, 600, false, false⟩ rfl
  norm_num [detectPasses, detectPass, startAdSequence, resetAdDataVariables,
    updateVideoContext, initSeqState, classifyCommon] at h2
  exact AdPosition.noConfusion h2

/-- C2 amended: the sequence-context machinery is inert — `startAdSequence`
immediately un-sets `isInAdSequence` through `resetAdDataVariables`, so
`consecutiveAdCount` never exceeds 0 and the stored-context override
(guarded by `consecutiveAdCount > 1`) is unreachable; every detection pass
of a consecutive-ad run is position-classified against its own live
observation.  The §8 scenario still holds: with the host video paused near
the 300-second point of its 600 seconds at each pass, all three consecutive
ads classify `mid_roll`. -/
theorem c2_sequence_reference :
    (∀ l : List Obs, detectPasses initSeqState l =
      l.map (fun o => classifyCommon o.t o.d o.ended o.paused)) ∧
    detectPasses initSeqState seqScenario =
      [.mid_roll, .mid_roll, .mid_roll] := by
  have hmain : ∀ l : List Obs, detectPasses initSeqState l =
      l.map (fun o => classifyCommon o.t o.d o.ended o.paused) :=
    fun l => detectPasses_live l initSeqState rfl
  refine ⟨hmain, ?_⟩
  rw [hmain]
  norm_num [seqScenario, classifyCommon]

/-- Helper: over any run of ad-activity events, the impressions counted for
a tab are chained so that consecutive same-id counts are more than 5000 ms
apart, and the first counted impression respects the tab's carried-over
dedup entry. -/
theorem runAdEvents_chain (events : List AdEvent) (s : BgState) (tab : ℕ) :
    (∀ b, ((runAdEvents s events).2.filter (fun a => a.tabId = tab)).head? = some b →
      ∀ lid lts, s.lastCountedAdIdByTab tab = some (lid, lts) →
        lid = b.adId → 5000 < b.timestamp - lts) ∧
    List.Chain' (fun a b => a.adId = b.adId → 5000 < b.timestamp - a.timestamp)
      ((runAdEvents s events).2.filter (fun a => a.tabId = tab)) := by
  induction events generalizing s with
  | nil => simp [runAdEvents]
  | cons e rest ih =>
    have hrun : (runAdEvents s (e :: rest)).2 =
        (handleAdCounting e s).2.toList ++
          (runAdEvents (handleAdCounting e s).1 rest).2 := rfl
    by_cases hcond : e.hasAd ∧ e.addebugVideoId ≠ "" ∧ e.addebugVideoId ≠ "empty_video"
    · by_cases hsc : (match s.lastCountedAdIdByTab e.tabId with
        | none => true
        | some (adId, timestamp) =>
          adId != e.addebugVideoId || decide (5000 < e.now - timestamp)) = true
      · -- the impression is counted
        have hstep : handleAdCounting e s =
            ({ s with
                lastCountedAdIdByTab := fun t =>
                  if t = e.tabId then some (e.addebugVideoId, e.now)
                  else s.lastCountedAdIdByTab t
                adTimestamps :=
                  (s.adTimestamps.filter (fun item => e.now - item.timestamp ≤ DAY_MS)) ++
                    [⟨e.addebugVideoId, e.now⟩] },
              some ⟨e.tabId, e.addebugVideoId, e.now⟩) := by
          simp only [handleAdCounting, if_pos hcond]
          rw [if_pos hsc]
        rw [hstep] at hrun
        have hih := ih (handleAdCounting e s).1
        rw [hstep] at hih
        dsimp only at hrun hih
        by_cases htab : e.tabId = tab
        · subst htab
          rw [hrun, Option.toList_some, List.singleton_append,
            List.filter_cons_of_pos (by simp)]
          have hlast : (if e.tabId = e.tabId then some (e.addebugVideoId, e.now)
              else s.lastCountedAdIdByTab e.tabId) = some (e.addebugVideoId, e.now) :=
            if_pos rfl
          constructor
          · intro b hb lid lts hsome hid
            rw [List.head?_cons, Option.some.injEq] at hb
            subst hb
            rcases hmatch : s.lastCountedAdIdByTab e.tabId with - | ⟨plid, plts⟩
            · rw [hmatch] at hsome
              exact absurd hsome (by simp)
            · rw [hmatch, Option.some.injEq, Prod.mk.injEq] at hsome
              rw [hmatch] at hsc
              rcases Bool.or_eq_true_iff.mp hsc with hne | hgap
              · exact absurd (hsome.1.trans hid) (by simpa using hne)
              · rw [← hsome.2]
                simpa using hgap
          · rw [List.chain'_cons']
            refine ⟨?_, hih.2⟩
            intro b hb hid
            exact hih.1 b (Option.mem_def.mp hb) e.addebugVideoId e.now hlast hid
        · rw [hrun, Option.toList_some, List.singleton_append,
            List.filter_cons_of_neg (by simp [htab])]
          have hlast : (if tab = e.tabId then some (e.addebugVideoId, e.now)
              else s.lastCountedAdIdByTab tab) = s.lastCountedAdIdByTab tab :=
            if_neg (fun hh => htab hh.symm)
          refine ⟨?_, hih.2⟩
          intro b hb lid lts hsome
          exact hih.1 b hb lid lts (hlast.trans hsome)
      · -- the dedup guard suppresses the count
        have hstep : handleAdCounting e s = (s, none) := by
          simp only [handleAdCounting, if_pos hcond]
          rw [if_neg hsc]
        rw [hstep] at hrun
        have hih := ih (handleAdCounting e s).1
        rw [hstep] at hih
        dsimp only at hrun hih
        rw [hrun, Option.toList_none, List.nil_append]
        exact hih
    · -- the message carries no countable ad
      have hstep : handleAdCounting e s = (s, none) := by
        simp only [handleAdCounting]
        rw [if_neg hcond]
      rw [hstep] at hrun
      have hih := ih (handleAdCounting e s).1
      rw [hstep] at hih
      dsimp only at hrun hih
      rw [hrun, Option.toList_none, List.nil_append]
      exact hih

/-- C5 counterexample: an A, B, A flicker on one tab, all inside 2 seconds,
counts the same ad id A twice within a single 5-second window — the dedup
guard only remembers the tab's most recently counted ad. -/
theorem c5_claim_counterexample : ¬ claimC5Statement := by
  intro h
  have hmono : List.Chain' (fun a b : AdEvent => a.now ≤ b.now) flickerEvents := by
    simp [flickerEvents, List.chain'_cons]
  have hcounts : tabAdCounts 1 flickerEvents =
      [⟨1, "A", 0⟩, ⟨1, "B", 1000⟩, ⟨1, "A", 2000⟩] := by rfl
  have h2 := h flickerEvents hmono 1
  rw [hcounts] at h2
  rcases List.pairwise_cons.mp h2 with ⟨hrel, -⟩
  have h3 := hrel ⟨1, "A", 2000⟩ (by simp) rfl
  dsimp only at h3
  omega

/-- C5 amended: the 5-second window is enforced only against the tab's most
recently counted ad — in any run of ad-activity events, two *consecutive*
impressions counted for the same tab with the same ad id are more than
5000 ms apart; with a different ad counted in between, the same id can be
counted again within the window. -/
theorem c5_ad_count_window (events : List AdEvent) (tab : ℕ) :
    List.Chain' (fun a b => a.adId = b.adId → 5000 < b.timestamp - a.timestamp)
      (tabAdCounts tab events) :=
  (runAdEvents_chain events initBgState tab).2

/-- C7 counterexample: a `VIDEO_DEBUG_ALL` message with `adActive: true`
and the `empty_video` placeholder id — exactly what the observer emits when
the page reports the placeholder — produces a per-tab record with
`adActive = true` and `currentAdId = "empty_video"`, violating the claimed
invariant. -/
theorem c7_claim_counterexample : ¬ claimC7Statement := by
  intro h
  have h2 := h ⟨true, "empty_video", "", ""⟩ none (by intro td htd; cases htd)
  have hrec : vdaUpdateRecord ⟨true, "empty_video", "", ""⟩ none =
      ⟨"", true, "empty_video", ""⟩ := by rfl
  rw [hrec] at h2
  exact (h2 rfl).2 rfl

/-- Helper: every impression a run of ad-activity events counts carries a
non-empty, non-placeholder ad id. -/
theorem runAdEvents_valid_ids (events : List AdEvent) (s : BgState) :
    ∀ a ∈ (runAdEvents s events).2, a.adId ≠ "" ∧ a.adId ≠ "empty_video" := by
  induction events generalizing s with
  | nil => simp [runAdEvents]
  | cons e rest ih =>
    intro a ha
    have hrun : (runAdEvents s (e :: rest)).2 =
        (handleAdCounting e s).2.toList ++
          (runAdEvents (handleAdCounting e s).1 rest).2 := rfl
    rw [hrun] at ha
    rcases List.mem_append.mp ha with hmem | hmem
    · by_cases hcond : e.hasAd ∧ e.addebugVideoId ≠ "" ∧ e.addebugVideoId ≠ "empty_video"
      · simp only [handleAdCounting, if_pos hcond] at hmem
        split at hmem
        · simp only [Option.toList_some, List.mem_singleton] at hmem
          subst hmem
          exact ⟨hcond.2.1, hcond.2.2⟩
        · simp at hmem
      · simp only [handleAdCounting, if_neg hcond] at hmem
        simp at hmem
    · exact ih (handleAdCounting e s).1 a hmem

/-- C7 amended: the claimed invariant does not hold of the per-tab record —
a message can leave `adActive = true` with a null or `empty_video` id — but
it does hold of everything the coordinator counts: `handleAdCounting`
appends an impression only when the ad id is non-empty and differs from the
`empty_video` placeholder. -/
theorem c7_counted_ad_id_valid (events : List AdEvent) :
    ∀ a ∈ (runAdEvents initBgState events).2,
      a.adId ≠ "" ∧ a.adId ≠ "empty_video" :=
  runAdEvents_valid_ids events initBgState

/-- C7 witness: a concrete counted impression has a valid ad id. -/
theorem c7_counted_ad_id_valid_witness :
    (⟨1, "adXYZ", 0⟩ : AdLogEntry) ∈
      (runAdEvents initBgState [⟨1, "adXYZ", true, 0⟩]).2 ∧
    ("adXYZ" ≠ "" ∧ "adXYZ" ≠ "empty_video") :=
  ⟨by decide,
    c7_counted_ad_id_valid [⟨1, "adXYZ", true, 0⟩] ⟨1, "adXYZ", 0⟩ (by decide)⟩

/-- Helper: touching `lastSentTime` leaves every buffer slot unchanged. -/
theorem bufOf_lastSentTime (s : SendState) (n : ℤ) (ty : MsgType) :
    bufOf { s with lastSentTime := n } ty = bufOf s ty := by
  cases ty <;> rfl

/-- Helper: storing a message fills its own buffer slot. -/
theorem bufOf_setBuf_self (s : SendState) (m : ObsMessage) :
    bufOf (setBuf s m) m.type = some m := by
  cases hm : m.type <;> simp [setBuf, bufOf, hm]

/-- Helper: storing a message leaves the other buffer slots unchanged. -/
theorem bufOf_setBuf_other (s : SendState) (m : ObsMessage) (ty : MsgType)
    (h : ¬ m.type = ty) :
    bufOf (setBuf s m) ty = bufOf s ty := by
  cases hm : m.type <;> cases ty <;> simp_all [setBuf, bufOf]

/-- Helper: the times of the messages sent from a state form a chain in
which each send is at least 500 ms after the previous one (starting from
the state's `lastSentTime`). -/
theorem processSends_rate (trace : List (ℤ × ObsMessage)) (s : SendState) :
    List.Chain (fun x y => x + 500 ≤ y) s.lastSentTime
      ((processSends s trace).2.map (fun p => p.1)) := by
  induction trace generalizing s with
  | nil => simp [processSends, List.Chain.nil]
  | cons e rest ih =>
    obtain ⟨now, m⟩ := e
    by_cases hrl : now - s.lastSentTime < 500
    · have hstep : sendMessage now m s = (s, false) := by
        simp only [sendMessage]; rw [if_pos hrl]
      have hout : (processSends s ((now, m) :: rest)).2 = (processSends s rest).2 := by
        simp only [processSends, hstep]
        rfl
      rw [hout]
      exact ih s
    · by_cases hdup : isMessageSimilar m (bufOf s m.type) = true
      · have hstep : sendMessage now m s = (s, false) := by
          simp only [sendMessage]
          rw [if_neg hrl, hdup]
          rfl
        have hout : (processSends s ((now, m) :: rest)).2 = (processSends s rest).2 := by
          simp only [processSends, hstep]
          rfl
        rw [hout]
        exact ih s
      · have hstep : sendMessage now m s =
            ({ setBuf s m with lastSentTime := now }, true) := by
          simp only [sendMessage]
          rw [if_neg hrl, Bool.eq_false_iff.mpr hdup]
          rfl
        have hout : (processSends s ((now, m) :: rest)).2 =
            (now, m) ::
              (processSends { setBuf s m with lastSentTime := now } rest).2 := by
          simp only [processSends, hstep]
          rfl
        rw [hout, List.map_cons, List.chain_cons]
        refine ⟨by omega, ?_⟩
        exact ih { setBuf s m with lastSentTime := now }

/-- Helper: the messages of one type sent from a state are chained without
consecutive structural duplicates, and the first one differs from the
buffered message of that type. -/
theorem processSends_dedup (trace : List (ℤ × ObsMessage)) (s : SendState)
    (ty : MsgType) :
    (∀ b, (((processSends s trace).2.filter (fun p => p.2.type = ty)).map
        (fun p => p.2)).head? = some b →
      ∀ prev, bufOf s ty = some prev → b ≠ prev) ∧
    List.Chain' (fun a b => a ≠ b)
      (((processSends s trace).2.filter (fun p => p.2.type = ty)).map
        (fun p => p.2)) := by
  induction trace generalizing s with
  | nil => simp [processSends]
  | cons e rest ih =>
    obtain ⟨now, m⟩ := e
    by_cases hrl : now - s.lastSentTime < 500
    · have hstep : sendMessage now m s = (s, false) := by
        simp only [sendMessage]; rw [if_pos hrl]
      have hout : (processSends s ((now, m) :: rest)).2 = (processSends s rest).2 := by
        simp only [processSends, hstep]
        rfl
      rw [hout]
      exact ih s
    · by_cases hdup : isMessageSimilar m (bufOf s m.type) = true
      · have hstep : sendMessage now m s = (s, false) := by
          simp only [sendMessage]
          rw [if_neg hrl, hdup]
          rfl
        have hout : (processSends s ((now, m) :: rest)).2 = (processSends s rest).2 := by
          simp only [processSends, hstep]
          rfl
        rw [hout]
        exact ih s
      · have hstep : sendMessage now m s =
            ({ setBuf s m with lastSentTime := now }, true) := by
          simp only [sendMessage]
          rw [if_neg hrl, Bool.eq_false_iff.mpr hdup]
          rfl
        have hout : (processSends s ((now, m) :: rest)).2 =
            (now, m) ::
              (processSends { setBuf s m with lastSentTime := now } rest).2 := by
          simp only [processSends, hstep]
          rfl
        rw [hout]
        have hih := ih { setBuf s m with lastSentTime := now }
        by_cases hty : m.type = ty
        · rw [List.filter_cons_of_pos (by simpa using hty), List.map_cons]
          have hbuf : bufOf { setBuf s m with lastSentTime := now } ty = some m := by
            rw [bufOf_lastSentTime, ← hty, bufOf_setBuf_self]
          constructor
          · intro b hb prev hprev
            rw [List.head?_cons, Option.some.injEq] at hb
            subst hb
            intro hbp
            rw [← hty] at hprev
            rw [hprev] at hdup
            exact hdup (by simpa [isMessageSimilar] using hbp)
          · rw [List.chain'_cons']
            refine ⟨?_, hih.2⟩
            intro y hy
            exact fun hmy => (hih.1 y (Option.mem_def.mp hy) m hbuf) hmy.symm
        · rw [List.filter_cons_of_neg (by simpa using hty)]
          have hbuf : bufOf { setBuf s m with lastSentTime := now } ty = bufOf s ty := by
            rw [bufOf_lastSentTime, bufOf_setBuf_other s m ty hty]
          refine ⟨?_, hih.2⟩
          intro b hb prev hprev
          exact hih.1 b hb prev (hbuf.trans hprev)

/-- C8: over any trace, the observer (a) never sends a message structurally
identical to the last sent message of the same type, and (b) never sends
two messages less than 500 ms apart, whatever their content — the rate
limiter stamps each send's own time, so consecutive sends are at least
500 ms apart and the gaps accumulate. -/
theorem c8_send_dedup_rate_limit (trace : List (ℤ × ObsMessage)) :
    (∀ ty : MsgType, List.Chain' (fun a b => a ≠ b)
      (((sentMessages trace).filter (fun p => p.2.type = ty)).map (fun p => p.2))) ∧
    List.Pairwise (fun a b => 500 ≤ b.1 - a.1) (sentMessages trace) := by
  constructor
  · intro ty
    exact (processSends_dedup trace initSendState ty).2
  · have hchain := processSends_rate trace initSendState
    have h1 : List.Chain' (fun x y : ℤ => x + 500 ≤ y)
        (initSendState.lastSentTime :: (sentMessages trace).map (fun p => p.1)) :=
      hchain
    have h2 : List.Chain' (fun x y : ℤ => x + 500 ≤ y)
        ((sentMessages trace).map (fun p => p.1)) := h1.tail
    haveI : IsTrans ℤ (fun x y : ℤ => x + 500 ≤ y) :=
      ⟨fun a b c hab hbc => by omega⟩
    have h3 := List.chain'_iff_pairwise.mp h2
    have h4 := List.pairwise_map.mp h3
    exact h4.imp (fun hab => by omega)

end AdHunt3r
